import Mathlib

/-!
Shallow embedding of the steam-harvest-data scraper (src/scrapper.py) and
verification of its specification claims.

Machine integers are modelled as `Int` (Python ints are unbounded), the three
identifier sets of `CursorManager` as `Finset Int`, and Python truthiness of
optional values is made explicit.  Effectful calls (HTTP fetches, file writes)
are modelled as oracle parameters describing their outcome; exceptions are
modelled as explicit outcome constructors.
-/

namespace SteamHarvest

/-- The in-memory state of `CursorManager`: the three identifier sets
`processed_appids`, `reserved_appids`, `failed_appids` (scrapper.py 144-146). -/
structure CursorState where
  processed : Finset Int
  reserved : Finset Int
  failed : Finset Int
deriving DecidableEq

/-- A freshly constructed `CursorManager`: all three sets empty. -/
def CursorState.empty : CursorState := ⟨∅, ∅, ∅⟩

/-- `CursorManager.reserve_appid` (scrapper.py 235-247): refuse when the id is
in any of the three sets, otherwise add it to `reserved_appids` and accept. -/
def reserve_appid (s : CursorState) (appid : Int) : CursorState × Bool :=
  if appid ∈ s.processed ∨ appid ∈ s.reserved ∨ appid ∈ s.failed then
    (s, false)
  else
    ({ s with reserved := insert appid s.reserved }, true)

/-- `CursorManager.mark_processed` (scrapper.py 249-262): discard the id from
`reserved_appids`; on success add it to `processed_appids` and discard it from
`failed_appids`; on failure add it to `failed_appids` (the source does not
discard it from `processed_appids` in this branch). -/
def mark_processed (s : CursorState) (appid : Int) (success : Bool) : CursorState :=
  let s1 : CursorState := { s with reserved := s.reserved.erase appid }
  if success then
    { s1 with processed := insert appid s1.processed, failed := s1.failed.erase appid }
  else
    { s1 with failed := insert appid s1.failed }

/-- `CursorManager.release_reservation` (scrapper.py 264-268). -/
def release_reservation (s : CursorState) (appid : Int) : CursorState :=
  { s with reserved := s.reserved.erase appid }

/-- An entry of the game list handed to `get_remaining_games`; only the
`appid` key is consulted (`game.get('appid')` may be absent), the rest of the
dict is opaque payload. -/
structure Game where
  appid : Option Int
  payload : String
deriving DecidableEq

/-- `CursorManager.get_remaining_games` (scrapper.py 270-283): keep the games
whose appid is truthy (present and nonzero, Python `if appid`) and not in
`processed_appids | reserved_appids`. -/
def get_remaining_games (s : CursorState) (all_games : List Game) : List Game :=
  all_games.filter (fun game =>
    match game.appid with
    | none => false
    | some a => !(a == 0) && !(decide (a ∈ s.processed ∪ s.reserved)))

/-- One public mutation of `CursorManager`. -/
inductive CursorOp
  | reserveOp (appid : Int)
  | markOp (appid : Int) (success : Bool)
  | releaseOp (appid : Int)
deriving DecidableEq

/-- Apply one `CursorManager` mutation to the state. -/
def applyOp (s : CursorState) : CursorOp → CursorState
  | .reserveOp a => (reserve_appid s a).1
  | .markOp a b => mark_processed s a b
  | .releaseOp a => release_reservation s a

/-- Run a sequence of `CursorManager` mutations. -/
def runOps (s : CursorState) (ops : List CursorOp) : CursorState :=
  ops.foldl applyOp s

/-- Whether an operation is a `release_reservation` or `mark_processed` call
for the given id. -/
def touches (appid : Int) : CursorOp → Bool
  | .reserveOp _ => false
  | .markOp a _ => a == appid
  | .releaseOp a => a == appid

/-- Guard of one operation: a `mark_processed` call must target an id that is
currently reserved; other calls are unrestricted. -/
def guardOf (s : CursorState) : CursorOp → Bool
  | .markOp a _ => decide (a ∈ s.reserved)
  | .reserveOp _ => true
  | .releaseOp _ => true

/-- A run is guarded when every `mark_processed` call targets an id that is
currently reserved, which is how `processar_um_jogo` uses the API (it calls
`mark_processed` only after a successful `reserve_appid`). -/
def guardedRun (s : CursorState) : List CursorOp → Bool
  | [] => true
  | op :: rest => guardOf s op && guardedRun (applyOp s op) rest

/-- The mutual-disjointness invariant of the three sets. -/
def disjointInv (s : CursorState) : Prop :=
  (∀ a, a ∈ s.processed → a ∉ s.failed) ∧
  (∀ a, a ∈ s.reserved → a ∉ s.processed) ∧
  (∀ a, a ∈ s.reserved → a ∉ s.failed)

/-- The counter of `ThreadSafeCounter` (scrapper.py 289-325): a value and an
optional maximum (`max_value` defaults to `None`). -/
structure ThreadSafeCounter where
  value : Int
  max_value : Option Int
deriving DecidableEq

/-- `ThreadSafeCounter.increment` (scrapper.py 297-303).  The guard is
`if self._max_value and self._value >= self._max_value`: a `None` or zero
`max_value` is falsy, so the guard can only fire for a nonzero maximum. -/
def ThreadSafeCounter.increment (c : ThreadSafeCounter) : ThreadSafeCounter × Bool × Int :=
  match c.max_value with
  | none => ({ c with value := c.value + 1 }, true, c.value + 1)
  | some m =>
    if m ≠ 0 ∧ m ≤ c.value then (c, false, c.value)
    else ({ c with value := c.value + 1 }, true, c.value + 1)

/-- `ThreadSafeCounter.decrement` (scrapper.py 305-309): `max(0, value - 1)`. -/
def ThreadSafeCounter.decrement (c : ThreadSafeCounter) : ThreadSafeCounter × Int :=
  ({ c with value := max 0 (c.value - 1) }, max 0 (c.value - 1))

/-- `ThreadSafeCounter.reached_limit` (scrapper.py 322-325): the Python
expression `self._max_value and self._value >= self._max_value` is falsy when
`max_value` is `None` or `0`. -/
def ThreadSafeCounter.reached_limit (c : ThreadSafeCounter) : Bool :=
  match c.max_value with
  | none => false
  | some m => !(m == 0) && decide (m ≤ c.value)

/-- One call of the public increment/decrement interface. -/
inductive CounterOp
  | incOp
  | decOp
deriving DecidableEq

/-- Apply one counter call. -/
def applyCounterOp (c : ThreadSafeCounter) : CounterOp → ThreadSafeCounter
  | .incOp => (ThreadSafeCounter.increment c).1
  | .decOp => (ThreadSafeCounter.decrement c).1

/-- Run a sequence of increment/decrement calls. -/
def runCounterOps (c : ThreadSafeCounter) (ops : List CounterOp) : ThreadSafeCounter :=
  ops.foldl applyCounterOp c

/-- The checkpoint dict written by `save_state` (scrapper.py 197-204); the
timestamp field is omitted as it carries no state. -/
structure Snapshot where
  processed_appids : List Int
  reserved_appids : List Int
  failed_appids : List Int
  total_games_found : Int
  last_batch_index : Int
deriving DecidableEq

/-- The clean state `load_state` starts from (scrapper.py 154-160). -/
def cleanSnapshot : Snapshot := ⟨[], [], [], 0, 0⟩

/-- The three checkpoint paths: `progress_file`, `backup_file` and the
transient `progress_file + ".tmp"`.  A file is either absent or holds one
fully written snapshot: every write in the source lands via `os.replace`,
which is atomic, or is the temp-file write that completes before the rename
in the interruption scenario considered by the spec. -/
structure FileSystem where
  progress : Option Snapshot
  backup : Option Snapshot
  temp : Option Snapshot
deriving DecidableEq

/-- Step 1 of `save_state` (scrapper.py 206-211): if the progress file exists,
`os.replace` it onto the backup path. -/
def rotateBackup (fs : FileSystem) : FileSystem :=
  match fs.progress with
  | some p => { progress := none, backup := some p, temp := fs.temp }
  | none => fs

/-- Step 2 of `save_state` (scrapper.py 213-216): write the snapshot to the
temp file. -/
def writeTemp (fs : FileSystem) (snap : Snapshot) : FileSystem :=
  { fs with temp := some snap }

/-- Step 3 of `save_state` (scrapper.py 218-219): `os.replace` the temp file
onto the progress file (atomic rename). -/
def renameTemp (fs : FileSystem) : FileSystem :=
  match fs.temp with
  | some t => { progress := some t, backup := fs.backup, temp := none }
  | none => fs

/-- `CursorManager.save_state` run to completion (scrapper.py 193-219). -/
def save_state (fs : FileSystem) (snap : Snapshot) : FileSystem :=
  renameTemp (writeTemp (rotateBackup fs) snap)

/-- How far a `save_state` call got before being interrupted. -/
inductive SavePoint
  | afterRotate
  | afterTempWrite
  | completed
deriving DecidableEq

/-- `save_state` interrupted after the given step. -/
def save_state_until (fs : FileSystem) (snap : Snapshot) : SavePoint → FileSystem
  | .afterRotate => rotateBackup fs
  | .afterTempWrite => writeTemp (rotateBackup fs) snap
  | .completed => save_state fs snap

/-- `CursorManager.load_state` (scrapper.py 152-191): try the progress file
first, fall back to the backup file, else start clean. -/
def load_state (fs : FileSystem) : Snapshot :=
  match fs.progress with
  | some s => s
  | none =>
    match fs.backup with
    | some s => s
    | none => cleanSnapshot

/-- One entry of the `categories` list of a detail payload: a dict (with an
optional `id` key) or a non-dict entry, which `_is_valid_game` skips. -/
inductive CatEntry
  | dictCat (catId : Option Int)
  | otherCat
deriving DecidableEq

/-- The fields of a detail payload consulted by `_is_valid_game`
(scrapper.py 625-642); the remaining payload is opaque. -/
structure GameDetails where
  type : String
  name : Option String
  categories : List CatEntry
deriving DecidableEq

/-- Python truthiness of `details.get('name')`: present and nonempty. -/
def truthyName : Option String → Bool
  | none => false
  | some s => !(s == "")

/-- `_is_valid_game` (scrapper.py 625-642): type must be "game", the name
must be truthy, and no dict category may carry id 21 (DLC). -/
def _is_valid_game (d : GameDetails) : Bool :=
  if !(d.type == "game") then false
  else if !(truthyName d.name) then false
  else if d.categories.any (fun c =>
      match c with
      | CatEntry.dictCat i => i == some 21
      | CatEntry.otherCat => false) then false
  else true

/-- The shared state touched by `processar_um_jogo`: the cursor sets, the
goal counter, and the two global flags (`stop_processing`, `goal_reached`).
Sequential semantics: no other thread mutates the state mid-call. -/
structure WorldState where
  cursor : CursorState
  counter : ThreadSafeCounter
  stopProcessing : Bool
  goalReached : Bool
deriving DecidableEq

/-- Outcome of the `get_app_details` call inside `processar_um_jogo`: an
unexpected exception, or a payload (`none` = app unavailable / no response). -/
inductive FetchDetails
  | raises
  | result (d : Option GameDetails)
deriving DecidableEq

/-- Outcome of the `get_app_reviews` call: an unexpected exception (the
post-increment exception point) or a list of review records. -/
inductive FetchReviews
  | raises
  | result (rs : List Int)
deriving DecidableEq

/-- Oracle for the effectful calls made by one `processar_um_jogo` run.
`saveDetailsOk` is the boolean returned by `safe_save_jsonl` for the detail
record (that function catches its own exceptions and returns False).
Per-review saves only feed a logged local counter and touch no shared state,
so they need no oracle. -/
structure ProcEnv where
  fetchDetails : FetchDetails
  saveDetailsOk : Bool
  fetchReviews : FetchReviews
deriving DecidableEq

/-- The idempotent goal signal: `if not goal_reached.is_set():
goal_reached.set()`. -/
def setGoal (w : WorldState) : WorldState :=
  if w.goalReached then w else { w with goalReached := true }

/-- `processar_um_jogo` (scrapper.py 530-623) for one work item, with the
effectful calls resolved by the oracle `env`.  Returns the new shared state
and the boolean result.  The `except Exception` handler (617-623) releases
the reservation and decrements the counter unconditionally; it is reachable
from the two oracle exception points (`get_app_details`, `get_app_reviews`). -/
def processar_um_jogo (env : ProcEnv) (app_appid : Option Int) (max_reviews : Int)
    (w : WorldState) : WorldState × Bool :=
  if w.stopProcessing || w.goalReached then (w, false)
  else
    match app_appid with
    | none => (w, false)
    | some appid =>
      if appid == 0 then (w, false)
      else if (reserve_appid w.cursor appid).2 == false then
        ({ w with cursor := (reserve_appid w.cursor appid).1 }, false)
      else if ThreadSafeCounter.reached_limit w.counter then
        (setGoal { w with
            cursor := release_reservation (reserve_appid w.cursor appid).1 appid }, false)
      else
        match env.fetchDetails with
        | FetchDetails.raises =>
          ({ w with
              cursor := release_reservation (reserve_appid w.cursor appid).1 appid,
              counter := (ThreadSafeCounter.decrement w.counter).1 }, false)
        | FetchDetails.result dOpt =>
          if dOpt == none || w.goalReached then
            ({ w with
                cursor := mark_processed (reserve_appid w.cursor appid).1 appid false }, false)
          else
            match dOpt with
            | none =>
              ({ w with
                  cursor := mark_processed (reserve_appid w.cursor appid).1 appid false }, false)
            | some d =>
              if _is_valid_game d == false then
                ({ w with
                    cursor := mark_processed (reserve_appid w.cursor appid).1 appid false }, false)
              else if (ThreadSafeCounter.increment w.counter).2.1 == false || w.goalReached then
                (setGoal { w with
                    cursor := mark_processed (reserve_appid w.cursor appid).1 appid false,
                    counter := (ThreadSafeCounter.increment w.counter).1 }, false)
              else if env.saveDetailsOk == false then
                ({ w with
                    cursor := mark_processed (reserve_appid w.cursor appid).1 appid false,
                    counter :=
                      (ThreadSafeCounter.decrement
                        (ThreadSafeCounter.increment w.counter).1).1 }, false)
              else
                match (if (0 < max_reviews) && !w.goalReached then env.fetchReviews
                       else FetchReviews.result []) with
                | FetchReviews.raises =>
                  ({ w with
                      cursor := release_reservation (reserve_appid w.cursor appid).1 appid,
                      counter :=
                        (ThreadSafeCounter.decrement
                          (ThreadSafeCounter.increment w.counter).1).1 }, false)
                | FetchReviews.result _ =>
                  if ThreadSafeCounter.reached_limit (ThreadSafeCounter.increment w.counter).1 then
                    (setGoal { w with
                        cursor := mark_processed (reserve_appid w.cursor appid).1 appid true,
                        counter := (ThreadSafeCounter.increment w.counter).1 }, true)
                  else
                    ({ w with
                        cursor := mark_processed (reserve_appid w.cursor appid).1 appid true,
                        counter := (ThreadSafeCounter.increment w.counter).1 }, true)

/-- One page of the review endpoint as decoded by `get_app_reviews`
(scrapper.py 473-524): the `success` flag, the `reviews` records (abstracted
to their identities) and the next `cursor` token. -/
structure ReviewPage where
  success : Bool
  reviews : List Int
  cursor : Option String
deriving DecidableEq

/-- Outcome of one page fetch: no response from `make_request`, a response
whose JSON decoding fails, or a decoded page. -/
inductive PageFetch
  | noResponse
  | badJson
  | pageResp (p : ReviewPage)
deriving DecidableEq

/-- Python truthiness of the cursor token (`if not cursor`). -/
def truthyCursor : Option String → Bool
  | none => false
  | some s => !(s == "")

/-- The `for page in range(max_pages)` loop of `get_app_reviews`, over the
remaining page indices and the reviews accumulated so far.  `flags page` is
the stop/goal flag read at the top of that iteration, `pages page` the fetch
outcome for that page.  Returns the accumulated reviews and the number of
pages fetched. -/
def get_app_reviewsLoop (flags : Nat → Bool) (pages : Nat → PageFetch)
    (num_reviews : Nat) : List Nat → List Int → List Int × Nat
  | [], acc => (acc, 0)
  | page :: rest, acc =>
    if flags page || decide (num_reviews ≤ acc.length) then (acc, 0)
    else
      match pages page with
      | PageFetch.noResponse => (acc, 1)
      | PageFetch.badJson => (acc, 1)
      | PageFetch.pageResp p =>
        if p.success && !(p.reviews == []) then
          if !(truthyCursor p.cursor) || p.reviews == [] then (acc ++ p.reviews, 1)
          else
            ((get_app_reviewsLoop flags pages num_reviews rest (acc ++ p.reviews)).1,
             (get_app_reviewsLoop flags pages num_reviews rest (acc ++ p.reviews)).2 + 1)
        else (acc, 1)

/-- `get_app_reviews` (scrapper.py 473-524): `max_pages = min(10,
(num_reviews + 99) // 100)`, then the pagination loop, then `reviews[:num_reviews]`.
`entryFlag` is the stop/goal flag read on entry. -/
def get_app_reviews (entryFlag : Bool) (flags : Nat → Bool) (pages : Nat → PageFetch)
    (num_reviews : Nat) : List Int × Nat :=
  if entryFlag then ([], 0)
  else
    ((get_app_reviewsLoop flags pages num_reviews
        (List.range (min 10 ((num_reviews + 99) / 100))) []).1.take num_reviews,
     (get_app_reviewsLoop flags pages num_reviews
        (List.range (min 10 ((num_reviews + 99) / 100))) []).2)

/-- One attempt outcome seen by `make_request` (scrapper.py 331-357): a
response that passes `raise_for_status`, an HTTP 429 with the jitter drawn
from `random.uniform(0, 1)`, or a `requests.RequestException` (which includes
the statuses that `raise_for_status` rejects). -/
inductive AttemptOutcome
  | ok
  | rateLimited (jitter : ℚ)
  | reqError
deriving DecidableEq

/-- Observable events of a `make_request` call: issuing the HTTP attempt with
its index, and sleeping for a duration in seconds. -/
inductive ReqEvent
  | attemptEv (attempt : Nat)
  | sleepEv (attempt : Nat) (seconds : ℚ)
deriving DecidableEq

/-- The `for attempt in range(retries)` loop of `make_request`, over the list
of remaining attempt indices.  `flags attempt` is the value of
`stop_processing.is_set() or goal_reached.is_set()` read at the top of that
iteration; `outcome attempt` is what the HTTP attempt produces.  Returns the
index of the successful attempt (if any) and the event log. -/
def make_requestLoop (flags : Nat → Bool) (outcome : Nat → AttemptOutcome)
    (retries : Nat) : List Nat → Option Nat × List ReqEvent
  | [] => (none, [])
  | attempt :: rest =>
    if flags attempt then (none, [])
    else
      match outcome attempt with
      | .ok => (some attempt, [ReqEvent.attemptEv attempt])
      | .rateLimited j =>
        let w : ℚ := min ((2:ℚ) ^ attempt + j) 10
        let r := make_requestLoop flags outcome retries rest
        (r.1, ReqEvent.attemptEv attempt :: ReqEvent.sleepEv attempt w :: r.2)
      | .reqError =>
        if attempt = retries - 1 then (none, [ReqEvent.attemptEv attempt])
        else
          let w : ℚ := min (1/2 * ((attempt : ℚ) + 1)) 3
          let r := make_requestLoop flags outcome retries rest
          (r.1, ReqEvent.attemptEv attempt :: ReqEvent.sleepEv attempt w :: r.2)

/-- `make_request` (scrapper.py 331-357). -/
def make_request (flags : Nat → Bool) (outcome : Nat → AttemptOutcome)
    (retries : Nat) : Option Nat × List ReqEvent :=
  make_requestLoop flags outcome retries (List.range retries)

/-- Number of HTTP attempts recorded in an event log. -/
def attemptsOf (log : List ReqEvent) : Nat :=
  log.countP (fun e =>
    match e with
    | ReqEvent.attemptEv _ => true
    | ReqEvent.sleepEv _ _ => false)

/-! ## Helper lemmas about the cursor operations -/

lemma mark_processed_reserved (s : CursorState) (a : Int) (b : Bool) :
    (mark_processed s a b).reserved = s.reserved.erase a := by
  cases b <;> rfl

lemma reserve_appid_reserved_mono (s : CursorState) (a appid : Int)
    (h : appid ∈ s.reserved) : appid ∈ (reserve_appid s a).1.reserved := by
  rw [reserve_appid]
  split
  · exact h
  · exact Finset.mem_insert_of_mem h

lemma mem_reserved_after_runOps (appid : Int) :
    ∀ (ops : List CursorOp) (s : CursorState),
      appid ∈ s.reserved → (∀ op ∈ ops, touches appid op = false) →
      appid ∈ (runOps s ops).reserved := by
  intro ops
  induction ops with
  | nil => intro s h _; exact h
  | cons op rest ih =>
    intro s h hops
    have hop : touches appid op = false := hops op (List.mem_cons_self op rest)
    have hrest : ∀ o ∈ rest, touches appid o = false :=
      fun o ho => hops o (List.mem_cons_of_mem op ho)
    have hstep : appid ∈ (applyOp s op).reserved := by
      cases op with
      | reserveOp a => exact reserve_appid_reserved_mono s a appid h
      | markOp a b =>
        have hne : appid ≠ a := by
          intro he
          rw [touches, he] at hop
          simp at hop
        rw [applyOp, mark_processed_reserved]
        exact Finset.mem_erase.2 ⟨hne, h⟩
      | releaseOp a =>
        have hne : appid ≠ a := by
          intro he
          rw [touches, he] at hop
          simp at hop
        exact Finset.mem_erase.2 ⟨hne, h⟩
    have := ih (applyOp s op) hstep hrest
    simpa [runOps, List.foldl] using this

lemma disjointInv_applyOp (s : CursorState) (op : CursorOp) (hinv : disjointInv s)
    (hg : ∀ a b, op = CursorOp.markOp a b → a ∈ s.reserved) :
    disjointInv (applyOp s op) := by
  obtain ⟨hpf, hrp, hrf⟩ := hinv
  cases op with
  | reserveOp a =>
    rw [applyOp, reserve_appid]
    split
    · exact ⟨hpf, hrp, hrf⟩
    · next hcond =>
      push_neg at hcond
      refine ⟨hpf, ?_, ?_⟩
      · intro x hx
        rcases Finset.mem_insert.1 hx with hx | hx
        · subst hx; exact hcond.1
        · exact hrp x hx
      · intro x hx
        rcases Finset.mem_insert.1 hx with hx | hx
        · subst hx; exact hcond.2.2
        · exact hrf x hx
  | markOp a b =>
    have ha : a ∈ s.reserved := hg a b rfl
    have hap : a ∈ s.processed → False := fun h => hrp a ha h
    have haf : a ∈ s.failed → False := fun h => hrf a ha h
    cases b with
    | true =>
      rw [applyOp, mark_processed]
      refine ⟨?_, ?_, ?_⟩
      · intro x hx hx2
        have hx2a := Finset.mem_of_mem_erase hx2
        rcases Finset.mem_insert.1 hx with hx | hx
        · subst hx; exact haf hx2a
        · exact hpf x hx hx2a
      · intro x hx hx2
        obtain ⟨hne, hxr⟩ := Finset.mem_erase.1 hx
        rcases Finset.mem_insert.1 hx2 with hx2 | hx2
        · exact hne hx2
        · exact hrp x hxr hx2
      · intro x hx hx2
        obtain ⟨hne, hxr⟩ := Finset.mem_erase.1 hx
        exact hrf x hxr (Finset.mem_of_mem_erase hx2)
    | false =>
      rw [applyOp, mark_processed]
      refine ⟨?_, ?_, ?_⟩
      · intro x hx hx2
        rcases Finset.mem_insert.1 hx2 with hx2 | hx2
        · subst hx2; exact hap hx
        · exact hpf x hx hx2
      · intro x hx hx2
        obtain ⟨hne, hxr⟩ := Finset.mem_erase.1 hx
        exact hrp x hxr hx2
      · intro x hx hx2
        obtain ⟨hne, hxr⟩ := Finset.mem_erase.1 hx
        rcases Finset.mem_insert.1 hx2 with hx2 | hx2
        · exact hne hx2
        · exact hrf x hxr hx2
  | releaseOp a =>
    refine ⟨hpf, ?_, ?_⟩
    · intro x hx
      exact hrp x (Finset.mem_of_mem_erase hx)
    · intro x hx
      exact hrf x (Finset.mem_of_mem_erase hx)

lemma disjointInv_guardedRun :
    ∀ (ops : List CursorOp) (s : CursorState),
      guardedRun s ops = true → disjointInv s → disjointInv (runOps s ops) := by
  intro ops
  induction ops with
  | nil => intro s _ hinv; exact hinv
  | cons op rest ih =>
    intro s hg hinv
    rw [guardedRun, Bool.and_eq_true] at hg
    obtain ⟨hg1, hg2⟩ := hg
    have hstep : disjointInv (applyOp s op) := by
      refine disjointInv_applyOp s op hinv ?_
      intro a b hab
      subst hab
      exact of_decide_eq_true hg1
    have := ih (applyOp s op) hg2 hstep
    simpa [runOps, List.foldl] using this

lemma disjointInv_empty : disjointInv CursorState.empty := by
  refine ⟨?_, ?_, ?_⟩ <;> intro a ha <;> simp [CursorState.empty] at ha

/-! ## Claims about CursorManager set operations -/

/-- C1: `reserve_appid` returns false and leaves the sets unchanged when the id
is already in `processed`, `reserved` or `failed`; otherwise it adds the id to
`reserved` and returns true; consequently, once a reserve call for an id
returned true, every later reserve call for that id returns false as long as
no `release_reservation` or `mark_processed` for that id intervenes. -/
theorem reserve_appid_exclusive (s : CursorState) (appid : Int) :
    ((appid ∈ s.processed ∨ appid ∈ s.reserved ∨ appid ∈ s.failed) →
       reserve_appid s appid = (s, false)) ∧
    (appid ∉ s.processed → appid ∉ s.reserved → appid ∉ s.failed →
       reserve_appid s appid =
         ({ s with reserved := insert appid s.reserved }, true)) ∧
    (∀ ops : List CursorOp, (reserve_appid s appid).2 = true →
       (∀ op ∈ ops, touches appid op = false) →
       (reserve_appid (runOps (reserve_appid s appid).1 ops) appid).2 = false) := by
  refine ⟨?_, ?_, ?_⟩
  · intro h
    simp [reserve_appid, h]
  · intro h1 h2 h3
    simp [reserve_appid, h1, h2, h3]
  · intro ops hres hops
    have h1 : appid ∈ (reserve_appid s appid).1.reserved := by
      by_cases h : appid ∈ s.processed ∨ appid ∈ s.reserved ∨ appid ∈ s.failed
      · simp [reserve_appid, h] at hres
      · simp [reserve_appid, h]
    have h2 := mem_reserved_after_runOps appid ops _ h1 hops
    have hcond : appid ∈ (runOps (reserve_appid s appid).1 ops).processed ∨
        appid ∈ (runOps (reserve_appid s appid).1 ops).reserved ∨
        appid ∈ (runOps (reserve_appid s appid).1 ops).failed := Or.inr (Or.inl h2)
    rw [reserve_appid, if_pos hcond]

/-- Witness for C1: a fresh id is reserved successfully, and a second reserve
call after unrelated operations is refused. -/
theorem reserve_appid_exclusive_witness :
    ((7:Int) ∉ CursorState.empty.processed ∧ (7:Int) ∉ CursorState.empty.reserved ∧
       (7:Int) ∉ CursorState.empty.failed ∧
       reserve_appid CursorState.empty 7 =
         ({ CursorState.empty with reserved := insert 7 CursorState.empty.reserved }, true)) ∧
    (reserve_appid
        (runOps (reserve_appid CursorState.empty 7).1
          [CursorOp.reserveOp 7, CursorOp.reserveOp 9]) 7).2 = false := by
  constructor
  · refine ⟨by decide, by decide, by decide, ?_⟩
    exact (reserve_appid_exclusive CursorState.empty 7).2.1 (by decide) (by decide) (by decide)
  · exact (reserve_appid_exclusive CursorState.empty 7).2.2
      [CursorOp.reserveOp 7, CursorOp.reserveOp 9] (by decide) (by decide)

/-- C3 counterexample: the claim says `mark_processed` removes the id from the
other terminal set in each case, but the failure branch of the source does not
remove the id from `processed_appids`; marking id 5 successful and then failed
leaves it in both terminal sets. -/
theorem mark_processed_not_disjoint :
    (5:Int) ∈ (mark_processed (mark_processed CursorState.empty 5 true) 5 false).processed ∧
    (5:Int) ∈ (mark_processed (mark_processed CursorState.empty 5 true) 5 false).failed := by
  decide

/-- C3 (amended): `mark_processed` removes the id from `reserved` and, on
success, adds it to `processed` while removing it from `failed`; on failure it
adds it to `failed` without removing it from `processed`.  Disjointness of
`processed` and `failed` therefore holds only for guarded operation sequences,
in which `mark_processed` is invoked solely on currently reserved ids — the
discipline the scraper follows, since a successful `reserve_appid` precedes
every `mark_processed` call. -/
theorem mark_processed_spec (s : CursorState) (appid : Int) :
    (mark_processed s appid true =
      { processed := insert appid s.processed,
        reserved := s.reserved.erase appid,
        failed := s.failed.erase appid }) ∧
    (mark_processed s appid false =
      { processed := s.processed,
        reserved := s.reserved.erase appid,
        failed := insert appid s.failed }) ∧
    (∀ ops : List CursorOp, guardedRun CursorState.empty ops = true →
       ∀ a : Int, a ∈ (runOps CursorState.empty ops).processed →
         a ∉ (runOps CursorState.empty ops).failed) := by
  refine ⟨rfl, rfl, ?_⟩
  intro ops hg a
  exact (disjointInv_guardedRun ops CursorState.empty hg disjointInv_empty).1 a

/-- Witness for C3 (amended): after a guarded run that reserves and marks two
ids, the id marked successful is not in `failed`. -/
theorem mark_processed_spec_witness :
    (1:Int) ∉ (runOps CursorState.empty
      [CursorOp.reserveOp 1, CursorOp.markOp 1 true,
       CursorOp.reserveOp 2, CursorOp.markOp 2 false]).failed :=
  (mark_processed_spec CursorState.empty 0).2.2
    [CursorOp.reserveOp 1, CursorOp.markOp 1 true,
     CursorOp.reserveOp 2, CursorOp.markOp 2 false]
    (by decide) 1 (by decide)

/-- C7 counterexample: the claim says exactly the games whose appid is outside
`processed` and `reserved` are returned, but the source also requires the
appid to be truthy: a game with appid 0 is dropped although 0 is in neither
set. -/
theorem get_remaining_games_drops_zero :
    get_remaining_games CursorState.empty [⟨some 0, "zero-game"⟩] = [] ∧
    (0:Int) ∉ CursorState.empty.processed ∧
    (0:Int) ∉ CursorState.empty.reserved := by
  decide

/-- C7 (amended): `get_remaining_games` returns exactly the input games that
carry a present, nonzero appid that is neither in `processed` nor in
`reserved`; in particular ids in `failed` are re-offered and ids in
`processed` are never returned. -/
theorem get_remaining_games_spec (s : CursorState) (games : List Game) (g : Game) :
    g ∈ get_remaining_games s games ↔
      g ∈ games ∧ ∃ a : Int, g.appid = some a ∧ a ≠ 0 ∧
        a ∉ s.processed ∧ a ∉ s.reserved := by
  rw [get_remaining_games, List.mem_filter]
  cases hg : g.appid with
  | none => simp [hg]
  | some a => simp [hg, Finset.mem_union, not_or, and_assoc]

/-- C5 counterexample: the claim requires only `initial ≤ M` with `M ≥ 1`, but
a counter built with maximum 5 and initial value -2 still has a negative value
after one accepted increment. -/
theorem counter_negative_initial :
    (1:Int) ≤ 5 ∧ (-2:Int) ≤ 5 ∧
    (runCounterOps ⟨-2, some 5⟩ [CounterOp.incOp]).value = -1 := by
  decide

lemma runCounterOps_bounds (M : Int) (hM : 1 ≤ M) :
    ∀ (ops : List CounterOp) (c : ThreadSafeCounter),
      c.max_value = some M → 0 ≤ c.value → c.value ≤ M →
      0 ≤ (runCounterOps c ops).value ∧ (runCounterOps c ops).value ≤ M := by
  intro ops
  induction ops with
  | nil => intro c _ h0 h1; exact ⟨h0, h1⟩
  | cons op rest ih =>
    intro c hmax h0 h1
    have hstep : (applyCounterOp c op).max_value = some M ∧
        0 ≤ (applyCounterOp c op).value ∧ (applyCounterOp c op).value ≤ M := by
      cases op with
      | incOp =>
        have hMne : M ≠ 0 := by omega
        rcases le_or_lt M c.value with hle | hlt
        · have he : applyCounterOp c CounterOp.incOp = c := by
            simp [applyCounterOp, ThreadSafeCounter.increment, hmax, hMne, hle]
          rw [he]
          exact ⟨hmax, h0, h1⟩
        · have hnle : ¬ M ≤ c.value := not_le.2 hlt
          have he : applyCounterOp c CounterOp.incOp = { c with value := c.value + 1 } := by
            simp [applyCounterOp, ThreadSafeCounter.increment, hmax, hnle]
          rw [he]
          refine ⟨hmax, ?_, ?_⟩
          · show 0 ≤ c.value + 1
            omega
          · show c.value + 1 ≤ M
            omega
      | decOp =>
        refine ⟨hmax, ?_, ?_⟩
        · show 0 ≤ max 0 (c.value - 1)
          exact le_max_left 0 _
        · show max 0 (c.value - 1) ≤ M
          exact max_le (by omega) (by omega)
    have := ih (applyCounterOp c op) hstep.1 hstep.2.1 hstep.2.2
    simpa [runCounterOps, List.foldl] using this

/-- C5 (amended): for a counter with configured maximum M ≥ 1 and an initial
value between 0 and M, every sequence of increment/decrement calls keeps the
value within [0, M]; increment refuses exactly when the value has reached M,
and decrement lowers the value by one floored at zero. -/
theorem counter_bounds (M init : Int) (ops : List CounterOp)
    (hM : 1 ≤ M) (h0 : 0 ≤ init) (h1 : init ≤ M) :
    (0 ≤ (runCounterOps ⟨init, some M⟩ ops).value ∧
     (runCounterOps ⟨init, some M⟩ ops).value ≤ M) ∧
    (∀ c : ThreadSafeCounter, c.max_value = some M →
       ((ThreadSafeCounter.increment c).2.1 = false ↔ M ≤ c.value)) ∧
    (∀ c : ThreadSafeCounter,
       (ThreadSafeCounter.decrement c).1.value = max 0 (c.value - 1)) := by
  refine ⟨runCounterOps_bounds M hM ops ⟨init, some M⟩ rfl h0 h1, ?_, fun c => rfl⟩
  intro c hmax
  have hMne : M ≠ 0 := by omega
  rcases le_or_lt M c.value with hle | hlt
  · have he : ThreadSafeCounter.increment c = (c, false, c.value) := by
      simp [ThreadSafeCounter.increment, hmax, hMne, hle]
    rw [he]
    simpa using hle
  · have hnle : ¬ M ≤ c.value := not_le.2 hlt
    have he : ThreadSafeCounter.increment c =
        ({ c with value := c.value + 1 }, true, c.value + 1) := by
      simp [ThreadSafeCounter.increment, hmax, hnle]
    rw [he]
    simpa using hnle

/-- Witness for C5 (amended) at M = 3, initial 0, two increments and one
decrement; the saturated counter refuses a further increment. -/
theorem counter_bounds_witness :
    (0 ≤ (runCounterOps ⟨0, some 3⟩ [CounterOp.incOp, CounterOp.incOp, CounterOp.decOp]).value ∧
     (runCounterOps ⟨0, some 3⟩ [CounterOp.incOp, CounterOp.incOp, CounterOp.decOp]).value ≤ 3) ∧
    ((ThreadSafeCounter.increment ⟨3, some 3⟩).2.1 = false ↔ (3:Int) ≤ 3) :=
  ⟨(counter_bounds 3 0 [CounterOp.incOp, CounterOp.incOp, CounterOp.decOp]
      (by decide) (by decide) (by decide)).1,
   (counter_bounds 3 0 [] (by decide) (by decide) (by decide)).2.1 ⟨3, some 3⟩ rfl⟩

/-- C10: a counter constructed with `max_value` None or 0 (both falsy in the
source guards) always accepts an increment, increases the value by one, and
never reports `reached_limit`. -/
theorem counter_unbounded (c : ThreadSafeCounter)
    (h : c.max_value = none ∨ c.max_value = some 0) :
    (ThreadSafeCounter.increment c).2.1 = true ∧
    (ThreadSafeCounter.increment c).1.value = c.value + 1 ∧
    ThreadSafeCounter.reached_limit c = false := by
  rcases h with h | h <;>
    simp [ThreadSafeCounter.increment, ThreadSafeCounter.reached_limit, h]

/-- Witness for C10 at value 7 with no configured maximum. -/
theorem counter_unbounded_witness :
    (ThreadSafeCounter.increment ⟨7, none⟩).2.1 = true ∧
    (ThreadSafeCounter.increment ⟨7, none⟩).1.value = 7 + 1 ∧
    ThreadSafeCounter.reached_limit ⟨7, none⟩ = false :=
  counter_unbounded ⟨7, none⟩ (Or.inl rfl)

/-! ## Checkpoint persistence (C4) -/

/-- C4: the completed save makes the primary hold the new checkpoint; a load
against the untouched filesystem yields the pre-save checkpoint; after a save
interrupted between the temp-file write and the rename, a load yields either
the pre-save or the post-save checkpoint (in the model, the pre-save one via
the backup); and whenever the primary is missing, `load_state` falls back to
the backup or to the clean state. -/
theorem save_state_crash_safe (fs : FileSystem) (pre post : Snapshot)
    (hpre : fs.progress = some pre) :
    load_state fs = pre ∧
    load_state (save_state_until fs post SavePoint.completed) = post ∧
    (load_state (save_state_until fs post SavePoint.afterTempWrite) = pre ∨
     load_state (save_state_until fs post SavePoint.afterTempWrite) = post) ∧
    (∀ fs2 : FileSystem, fs2.progress = none →
       load_state fs2 = fs2.backup.getD cleanSnapshot) := by
  refine ⟨?_, ?_, ?_, ?_⟩
  · simp [load_state, hpre]
  · simp [save_state_until, save_state, rotateBackup, writeTemp, renameTemp,
      load_state, hpre]
  · left
    simp [save_state_until, rotateBackup, writeTemp, load_state, hpre]
  · intro fs2 h2
    cases hb : fs2.backup <;> simp [load_state, h2, hb]

/-- Witness for C4 at a concrete filesystem and concrete pre/post snapshots. -/
theorem save_state_crash_safe_witness :
    load_state ⟨some ⟨[1], [], [], 1, 0⟩, none, none⟩ = ⟨[1], [], [], 1, 0⟩ ∧
    load_state (save_state_until ⟨some ⟨[1], [], [], 1, 0⟩, none, none⟩
      ⟨[1, 2], [], [3], 2, 0⟩ SavePoint.completed) = ⟨[1, 2], [], [3], 2, 0⟩ ∧
    (load_state (save_state_until ⟨some ⟨[1], [], [], 1, 0⟩, none, none⟩
       ⟨[1, 2], [], [3], 2, 0⟩ SavePoint.afterTempWrite) = ⟨[1], [], [], 1, 0⟩ ∨
     load_state (save_state_until ⟨some ⟨[1], [], [], 1, 0⟩, none, none⟩
       ⟨[1, 2], [], [3], 2, 0⟩ SavePoint.afterTempWrite) = ⟨[1, 2], [], [3], 2, 0⟩) ∧
    (∀ fs2 : FileSystem, fs2.progress = none →
       load_state fs2 = fs2.backup.getD cleanSnapshot) :=
  save_state_crash_safe ⟨some ⟨[1], [], [], 1, 0⟩, none, none⟩
    ⟨[1], [], [], 1, 0⟩ ⟨[1, 2], [], [3], 2, 0⟩ rfl

/-! ## Retry loop of make_request (C8) -/

lemma make_requestLoop_attempts (flags : Nat → Bool) (outcome : Nat → AttemptOutcome)
    (retries : Nat) :
    ∀ idxs : List Nat,
      attemptsOf (make_requestLoop flags outcome retries idxs).2 ≤ idxs.length := by
  intro idxs
  induction idxs with
  | nil => simp [make_requestLoop, attemptsOf]
  | cons a rest ih =>
    by_cases hf : flags a
    · simp [make_requestLoop, hf, attemptsOf]
    · rw [make_requestLoop, if_neg (by simpa using hf)]
      cases ho : outcome a with
      | ok => simp [attemptsOf]
      | rateLimited j =>
        have h2 := ih
        simp only [attemptsOf] at h2
        simp [attemptsOf, List.countP_cons]
        omega
      | reqError =>
        by_cases hl : a = retries - 1
        · rw [if_pos hl]
          simp [attemptsOf]
        · rw [if_neg hl]
          have h2 := ih
          simp only [attemptsOf] at h2
          simp [attemptsOf, List.countP_cons]
          omega

lemma make_requestLoop_sleeps (flags : Nat → Bool) (outcome : Nat → AttemptOutcome)
    (retries : Nat) :
    ∀ idxs : List Nat, (∀ x ∈ idxs, x < retries) →
      ∀ i (w : ℚ), ReqEvent.sleepEv i w ∈ (make_requestLoop flags outcome retries idxs).2 →
        ((∃ j, outcome i = AttemptOutcome.rateLimited j ∧ w = min ((2:ℚ) ^ i + j) 10) ∨
         (outcome i = AttemptOutcome.reqError ∧ w = min (1/2 * ((i:ℚ) + 1)) 3 ∧
           i + 1 < retries)) := by
  intro idxs
  induction idxs with
  | nil => intro _ i w hmem; simp [make_requestLoop] at hmem
  | cons a rest ih =>
    intro hlt i w hmem
    have hart : a < retries := hlt a (List.mem_cons_self a rest)
    have hrest : ∀ x ∈ rest, x < retries := fun x hx => hlt x (List.mem_cons_of_mem a hx)
    rw [make_requestLoop] at hmem
    by_cases hf : flags a
    · rw [if_pos hf] at hmem
      simp at hmem
    · rw [if_neg hf] at hmem
      cases ho : outcome a with
      | ok =>
        rw [ho] at hmem
        simp at hmem
      | rateLimited j =>
        rw [ho] at hmem
        simp only [List.mem_cons] at hmem
        rcases hmem with hmem | hmem | hmem
        · exact absurd hmem (by simp)
        · obtain ⟨hi, hw⟩ := ReqEvent.sleepEv.inj hmem
          subst hi
          exact Or.inl ⟨j, ho, hw⟩
        · exact ih hrest i w hmem
      | reqError =>
        rw [ho] at hmem
        by_cases hl : a = retries - 1
        · rw [if_pos hl] at hmem
          simp at hmem
        · rw [if_neg hl] at hmem
          simp only [List.mem_cons] at hmem
          rcases hmem with hmem | hmem | hmem
          · exact absurd hmem (by simp)
          · obtain ⟨hi, hw⟩ := ReqEvent.sleepEv.inj hmem
            subst hi
            exact Or.inr ⟨ho, hw, by omega⟩
          · exact ih hrest i w hmem

lemma make_requestLoop_none (flags : Nat → Bool) (outcome : Nat → AttemptOutcome)
    (retries : Nat) (hok : ∀ i, outcome i ≠ AttemptOutcome.ok) :
    ∀ idxs : List Nat, (make_requestLoop flags outcome retries idxs).1 = none := by
  intro idxs
  induction idxs with
  | nil => rfl
  | cons a rest ih =>
    rw [make_requestLoop]
    by_cases hf : flags a
    · rw [if_pos hf]
    · rw [if_neg hf]
      cases ho : outcome a with
      | ok => exact absurd ho (hok a)
      | rateLimited j => simpa using ih
      | reqError =>
        by_cases hl : a = retries - 1
        · rw [if_pos hl]
        · rw [if_neg hl]
          simpa using ih

/-- C8: `make_request` makes at most `retries` attempts; whenever the
stop/goal flag is set at the top of an iteration it returns no payload
without starting another attempt; every recorded sleep is either a 429 sleep
of `min(2 ** attempt + jitter, 10)` seconds or, before a further attempt, an
error sleep of `min(0.5 * (attempt + 1), 3)` seconds; and when no attempt
succeeds it returns no payload after exhausting the attempts. -/
theorem make_request_spec (flags : Nat → Bool) (outcome : Nat → AttemptOutcome)
    (retries : Nat) :
    (attemptsOf (make_request flags outcome retries).2 ≤ retries) ∧
    (∀ a rest, flags a = true →
       make_requestLoop flags outcome retries (a :: rest) = (none, [])) ∧
    (∀ i (w : ℚ), ReqEvent.sleepEv i w ∈ (make_request flags outcome retries).2 →
       ((∃ j, outcome i = AttemptOutcome.rateLimited j ∧ w = min ((2:ℚ) ^ i + j) 10) ∨
        (outcome i = AttemptOutcome.reqError ∧ w = min (1/2 * ((i:ℚ) + 1)) 3 ∧
          i + 1 < retries))) ∧
    ((∀ i, outcome i ≠ AttemptOutcome.ok) → (make_request flags outcome retries).1 = none) := by
  refine ⟨?_, ?_, ?_, ?_⟩
  · have h := make_requestLoop_attempts flags outcome retries (List.range retries)
    simpa [make_request] using h
  · intro a rest hf
    simp [make_requestLoop, hf]
  · intro i w hmem
    exact make_requestLoop_sleeps flags outcome retries (List.range retries)
      (fun x hx => List.mem_range.1 hx) i w hmem
  · intro hok
    exact make_requestLoop_none flags outcome retries hok (List.range retries)

/-- Witness for C8: three failing attempts stay within the bound and yield no
payload; a set flag short-circuits the loop; a 429 on attempt 0 records the
backoff sleep. -/
theorem make_request_spec_witness :
    (attemptsOf (make_request (fun _ => false) (fun _ => AttemptOutcome.reqError) 3).2 ≤ 3) ∧
    make_requestLoop (fun _ => true) (fun _ => AttemptOutcome.reqError) 3 [0, 1, 2] = (none, []) ∧
    (make_request (fun _ => false) (fun _ => AttemptOutcome.reqError) 3).1 = none ∧
    ((∃ j, AttemptOutcome.rateLimited (1:ℚ) = AttemptOutcome.rateLimited j ∧
        (2:ℚ) = min ((2:ℚ) ^ 0 + j) 10) ∨
     (AttemptOutcome.rateLimited (1:ℚ) = AttemptOutcome.reqError ∧
        (2:ℚ) = min (1/2 * ((0:ℚ) + 1)) 3 ∧ 0 + 1 < 2)) :=
  ⟨(make_request_spec (fun _ => false) (fun _ => AttemptOutcome.reqError) 3).1,
   (make_request_spec (fun _ => true) (fun _ => AttemptOutcome.reqError) 3).2.1 0 [1, 2] rfl,
   (make_request_spec (fun _ => false) (fun _ => AttemptOutcome.reqError) 3).2.2.2
     (fun _ h => by simp at h),
   (make_request_spec (fun _ => false) (fun _ => AttemptOutcome.rateLimited 1) 2).2.2.1
     0 2 (by
       have h2 : List.range 2 = [0, 1] := by decide
       rw [make_request, h2]
       simp [make_requestLoop, min_def]
       norm_num)⟩

/-! ## Review pagination (C9) -/

lemma range_getD (n k : Nat) (h : k < n) : (List.range n).getD k 0 = k := by
  rw [List.getD_eq_getElem?_getD, List.getElem?_range h]
  rfl

lemma get_app_reviewsLoop_pages_le (flags : Nat → Bool) (pages : Nat → PageFetch)
    (num_reviews : Nat) :
    ∀ (idxs : List Nat) (acc : List Int),
      (get_app_reviewsLoop flags pages num_reviews idxs acc).2 ≤ idxs.length := by
  intro idxs
  induction idxs with
  | nil => intro acc; simp [get_app_reviewsLoop]
  | cons a rest ih =>
    intro acc
    rw [get_app_reviewsLoop]
    split
    · simp
    · split
      · simp
      · simp
      · rename_i p _
        split
        · split
          · simp
          · have h2 := ih (acc ++ p.reviews)
            simp only [List.length_cons]
            omega
        · simp

lemma get_app_reviewsLoop_stops (flags : Nat → Bool) (pages : Nat → PageFetch)
    (num_reviews : Nat) :
    ∀ (idxs : List Nat) (acc : List Int) (k : Nat),
      k + 1 < (get_app_reviewsLoop flags pages num_reviews idxs acc).2 →
      ∃ p : ReviewPage, pages (idxs.getD k 0) = PageFetch.pageResp p ∧
        p.success = true ∧ p.reviews ≠ [] ∧ truthyCursor p.cursor = true := by
  intro idxs
  induction idxs with
  | nil => intro acc k hk; simp [get_app_reviewsLoop] at hk
  | cons a rest ih =>
    intro acc k hk
    rw [get_app_reviewsLoop] at hk
    split at hk
    · omega
    · split at hk
      · omega
      · omega
      · rename_i p heq
        split at hk
        · split at hk
          · omega
          · rename_i hcond hcont
            cases k with
            | zero =>
              rw [Bool.and_eq_true] at hcond
              obtain ⟨hsucc, hne⟩ := hcond
              have hne2 : p.reviews ≠ [] := by simpa using hne
              have hcur : truthyCursor p.cursor = true := by
                by_contra hc
                apply hcont
                have hfalse : truthyCursor p.cursor = false := by
                  revert hc
                  cases truthyCursor p.cursor <;> simp
                simp [hfalse]
              exact ⟨p, heq, hsucc, hne2, hcur⟩
            | succ k2 =>
              have h2 := ih (acc ++ p.reviews) k2 (by omega)
              simpa [List.getD_cons_succ] using h2
        · omega

/-- C9: `get_app_reviews` fetches at most 10 pages whatever `num_reviews`
asks for, returns at most `num_reviews` records, and every fetched page other
than the last was a decoded successful page with records and a truthy cursor
— equivalently, pagination ends at the first page yielding no records or no
next cursor (and at any fetch failure). -/
theorem get_app_reviews_spec (entryFlag : Bool) (flags : Nat → Bool)
    (pages : Nat → PageFetch) (num_reviews : Nat) :
    (get_app_reviews entryFlag flags pages num_reviews).2 ≤ 10 ∧
    (get_app_reviews entryFlag flags pages num_reviews).1.length ≤ num_reviews ∧
    (∀ k : Nat, k + 1 < (get_app_reviews entryFlag flags pages num_reviews).2 →
       ∃ p : ReviewPage, pages k = PageFetch.pageResp p ∧ p.success = true ∧
         p.reviews ≠ [] ∧ truthyCursor p.cursor = true) := by
  by_cases he : entryFlag
  · refine ⟨?_, ?_, ?_⟩ <;> simp [get_app_reviews, he]
  · refine ⟨?_, ?_, ?_⟩
    · rw [get_app_reviews, if_neg he]
      have h1 := get_app_reviewsLoop_pages_le flags pages num_reviews
        (List.range (min 10 ((num_reviews + 99) / 100))) []
      rw [List.length_range] at h1
      have h2 : min 10 ((num_reviews + 99) / 100) ≤ 10 := min_le_left _ _
      show (get_app_reviewsLoop flags pages num_reviews
        (List.range (min 10 ((num_reviews + 99) / 100))) []).2 ≤ 10
      omega
    · rw [get_app_reviews, if_neg he]
      show ((get_app_reviewsLoop flags pages num_reviews
        (List.range (min 10 ((num_reviews + 99) / 100))) []).1.take num_reviews).length ≤
        num_reviews
      rw [List.length_take]
      exact min_le_left _ _
    · intro k hk
      rw [get_app_reviews, if_neg he] at hk
      have hk2 : k + 1 < (get_app_reviewsLoop flags pages num_reviews
        (List.range (min 10 ((num_reviews + 99) / 100))) []).2 := hk
      have hstop := get_app_reviewsLoop_stops flags pages num_reviews
        (List.range (min 10 ((num_reviews + 99) / 100))) [] k hk2
      have hkN : k < min 10 ((num_reviews + 99) / 100) := by
        have hle := get_app_reviewsLoop_pages_le flags pages num_reviews
          (List.range (min 10 ((num_reviews + 99) / 100))) []
        rw [List.length_range] at hle
        omega
      rwa [range_getD _ k hkN] at hstop

/-- The review-page oracle of the spec scenario: page 1 yields two records
with a next cursor, page 2 yields a cursor but zero records. -/
def scenarioPages : Nat → PageFetch := fun n =>
  if n == 0 then PageFetch.pageResp ⟨true, [1, 2], some "c"⟩
  else PageFetch.pageResp ⟨true, [], some "c"⟩

/-- Witness for C9 on the spec scenario: pagination stops after page 2, the
review set is what page 1 returned, and the bounds hold. -/
theorem get_app_reviews_spec_witness :
    (get_app_reviews false (fun _ => false) scenarioPages 250).2 ≤ 10 ∧
    (get_app_reviews false (fun _ => false) scenarioPages 250).1.length ≤ 250 ∧
    (get_app_reviews false (fun _ => false) scenarioPages 250).1 = [1, 2] ∧
    (get_app_reviews false (fun _ => false) scenarioPages 250).2 = 2 ∧
    (∃ p : ReviewPage, scenarioPages 0 = PageFetch.pageResp p ∧ p.success = true ∧
       p.reviews ≠ [] ∧ truthyCursor p.cursor = true) :=
  ⟨(get_app_reviews_spec false (fun _ => false) scenarioPages 250).1,
   (get_app_reviews_spec false (fun _ => false) scenarioPages 250).2.1,
   by decide, by decide,
   (get_app_reviews_spec false (fun _ => false) scenarioPages 250).2.2 0 (by decide)⟩

/-! ## The per-item worker routine (C2, C6) -/

lemma setGoal_cursor (w : WorldState) : (setGoal w).cursor = w.cursor := by
  rw [setGoal]
  split <;> rfl

lemma reserve_appid_refused (s : CursorState) (a : Int)
    (h : (reserve_appid s a).2 = false) : (reserve_appid s a).1 = s := by
  by_cases hc : a ∈ s.processed ∨ a ∈ s.reserved ∨ a ∈ s.failed
  · simp [reserve_appid, hc]
  · simp [reserve_appid, hc] at h

/-- C2: whatever the oracle outcomes — goal pre-check refusal, no payload,
validation rejection, counter-admission refusal, detail-persistence failure,
success, or an unexpected exception — an id that was not reserved before the
call is not reserved after `processar_um_jogo` returns: a reservation taken
inside the call always ends released, processed or failed. -/
theorem processar_no_stuck_reservation (env : ProcEnv) (appid : Int)
    (max_reviews : Int) (w : WorldState) (h : appid ∉ w.cursor.reserved) :
    appid ∉ (processar_um_jogo env (some appid) max_reviews w).1.cursor.reserved := by
  have hrel : ∀ s : CursorState, appid ∉ (release_reservation s appid).reserved :=
    fun s => Finset.not_mem_erase appid s.reserved
  have hmark : ∀ (s : CursorState) (b : Bool),
      appid ∉ (mark_processed s appid b).reserved := by
    intro s b
    rw [mark_processed_reserved]
    exact Finset.not_mem_erase appid s.reserved
  simp only [processar_um_jogo]
  repeat' split
  all_goals
    first
    | exact h
    | exact hrel _
    | exact hmark _ _
    | (simp only [setGoal_cursor]
       first
       | exact hrel _
       | exact hmark _ _)
    | (rename_i hr
       have hco : (reserve_appid w.cursor appid).1 = w.cursor :=
         reserve_appid_refused w.cursor appid (by simpa using hr)
       simpa [hco] using h)

/-- Witness for C2: a fresh id processed successfully ends outside the
reserved set. -/
theorem processar_no_stuck_reservation_witness :
    (7:Int) ∉ (⟨CursorState.empty, ⟨0, some 5⟩, false, false⟩ : WorldState).cursor.reserved ∧
    (7:Int) ∉ (processar_um_jogo
        ⟨FetchDetails.result (some ⟨"game", some "Portal", []⟩), true, FetchReviews.result []⟩
        (some 7) 0 ⟨CursorState.empty, ⟨0, some 5⟩, false, false⟩).1.cursor.reserved :=
  ⟨by decide,
   processar_no_stuck_reservation
     ⟨FetchDetails.result (some ⟨"game", some "Portal", []⟩), true, FetchReviews.result []⟩
     7 0 ⟨CursorState.empty, ⟨0, some 5⟩, false, false⟩ (by decide)⟩

/-- C6: the exception handler of `processar_um_jogo` (scrapper.py 616-623)
decrements the goal counter unconditionally, although its own comment (and
the spec) say the counter is compensated only if it had been incremented for
the item.  Here `get_app_details` raises before any increment while the
shared counter stands at 3 of 10: the reservation is correctly released, yet
the counter drops to 2 — a net effect of -1 for an item that was never
counted, contradicting the claimed net effect of zero. -/
theorem processar_exception_decrements_unconditionally :
    (processar_um_jogo ⟨FetchDetails.raises, true, FetchReviews.result []⟩ (some 42) 0
        ⟨CursorState.empty, ⟨3, some 10⟩, false, false⟩).1.counter.value = 2 ∧
    (42:Int) ∉ (processar_um_jogo ⟨FetchDetails.raises, true, FetchReviews.result []⟩ (some 42) 0
        ⟨CursorState.empty, ⟨3, some 10⟩, false, false⟩).1.cursor.reserved := by
  decide

end SteamHarvest
